import Mathlib

/-!
Verification of the acceptance-test harness (package `test`) of the
alertmanager repository: the virtual clock, the action scheduler, the
managed-instance lifecycle and the collector reconciliation model.

Times are embedded exactly: an absolute `time.Time` instant and a
`time.Duration` are integer nanosecond counts (ℤ); relative test times
(Go `float64` seconds) are embedded as exact rationals (ℚ), with the
`float64 → int64` truncation of `time.Duration(rel * float64(time.Second))`
made explicit by `ratTrunc`.
-/

namespace AMTest

/-- Absolute wall-clock instant, in integer nanoseconds (Go `time.Time`). -/
abbrev Time := ℤ

/-- Nanoseconds in one second: Go `time.Second`. -/
def second : ℤ := 1000000000

/-- Truncation toward zero of a rational, mirroring Go's `float64 → int64`
conversion used in `time.Duration(rel * float64(time.Second))`. -/
def ratTrunc (q : ℚ) : ℤ :=
  if q < 0 then ⌈q⌉ else ⌊q⌋

/-- Configuration parameters of an acceptance test (`AcceptanceOpts`,
part_000 lines 34-37): the match tolerance and the base time fixed at
test construction. -/
structure AcceptanceOpts where
  tolerance : ℚ
  baseTime : Time

/-- Embedding of `AcceptanceOpts.expandTime` (part_000 lines 41-43):
`opts.baseTime.Add(time.Duration(rel * float64(time.Second)))`. -/
def AcceptanceOpts.expandTime (opts : AcceptanceOpts) (rel : ℚ) : Time :=
  opts.baseTime + ratTrunc (rel * (second : ℚ))

/-- Embedding of `AcceptanceOpts.relativeTime` (part_000 lines 47-49):
`float64(act.Sub(opts.baseTime)) / float64(time.Second)`. -/
def AcceptanceOpts.relativeTime (opts : AcceptanceOpts) (act : Time) : ℚ :=
  ((act - opts.baseTime : ℤ) : ℚ) / (second : ℚ)

theorem ratTrunc_sub_lt (q : ℚ) : |(ratTrunc q : ℚ) - q| < 1 := by
  unfold ratTrunc
  rcases lt_or_le q 0 with h | h
  · simp only [if_pos h]
    rw [abs_lt]
    constructor
    · have := Int.le_ceil q
      linarith
    · have := Int.ceil_lt_add_one q
      linarith
  · simp only [if_neg (not_lt.mpr h)]
    rw [abs_lt]
    constructor
    · have := Int.lt_floor_add_one q
      linarith
    · have := Int.floor_le q
      linarith

/-- The round trip through the clock lands on the truncated nanosecond grid. -/
theorem relativeTime_expandTime (opts : AcceptanceOpts) (x : ℚ) :
    opts.relativeTime (opts.expandTime x) = (ratTrunc (x * (second : ℚ)) : ℚ) / (second : ℚ) := by
  unfold AcceptanceOpts.relativeTime AcceptanceOpts.expandTime
  push_cast
  ring_nf

/-- C3: for every finite relative time x and a fixed base time, the virtual
clock's conversions are mutual inverses up to rounding at sub-microsecond
scale: |relativeTime (expandTime x) - x| is below one microsecond (it is in
fact below one nanosecond, the truncation grain); both conversions are total
pure functions of the base time. -/
theorem clock_inverse (opts : AcceptanceOpts) (x : ℚ) :
    |opts.relativeTime (opts.expandTime x) - x| < 1 / 1000000 := by
  rw [relativeTime_expandTime]
  have hsec : (second : ℚ) = 1000000000 := by norm_num [second]
  have h := ratTrunc_sub_lt (x * (second : ℚ))
  have hpos : (0 : ℚ) < (second : ℚ) := by rw [hsec]; norm_num
  have key : (ratTrunc (x * (second : ℚ)) : ℚ) / (second : ℚ) - x
      = ((ratTrunc (x * (second : ℚ)) : ℚ) - x * (second : ℚ)) / (second : ℚ) := by
    field_simp
    ring
  rw [key, abs_div, abs_of_pos hpos]
  rw [div_lt_iff₀ hpos]
  calc |(ratTrunc (x * (second : ℚ)) : ℚ) - x * (second : ℚ)| < 1 := h
    _ ≤ 1 / 1000000 * (second : ℚ) := by rw [hsec]; norm_num

/-! ### Action scheduler registry (C5)

`AcceptanceTest.actions` is `map[float64][]func()`; `Do` (part_000 lines
78-80) appends: `t.actions[at] = append(t.actions[at], f)`. The map is
embedded as a total function from relative time to the list of registered
operations, operations drawn from an arbitrary type. -/

/-- Embedding of `AcceptanceTest.Do` (part_000 lines 78-80): the registry
after `t.actions[at] = append(t.actions[at], f)`. -/
def Do {α : Type} (actions : ℚ → List α) (at' : ℚ) (f : α) : ℚ → List α :=
  fun t => if t = at' then actions t ++ [f] else actions t

/-- A sequence of `Do` calls, applied in order. -/
def doAll {α : Type} (actions : ℚ → List α) : List (ℚ × α) → (ℚ → List α)
  | [] => actions
  | (t, f) :: rest => doAll (Do actions t f) rest

/-- C5: scheduling appends: after any sequence of Do calls on any starting
registry, the actions stored at time t are the previously stored ones
followed by exactly the operations scheduled at t, in call order — a second
operation at the same time never overwrites an earlier one. -/
theorem do_appends {α : Type} (calls : List (ℚ × α)) (actions : ℚ → List α) (t : ℚ) :
    doAll actions calls t
      = actions t ++ (calls.filter (fun c => decide (c.1 = t))).map Prod.snd := by
  induction calls generalizing actions with
  | nil => simp [doAll]
  | cons c rest ih =>
    obtain ⟨t0, f⟩ := c
    rw [doAll, ih]
    by_cases h : t0 = t
    · subst h
      simp [Do, List.filter]
    · have h' : ¬ t = t0 := fun hh => h hh.symm
      simp [Do, List.filter, h, h']

/-! ### Run teardown (C1)

In `AcceptanceTest.Run` (part_000 lines 140-170) the loop body is
`am.Start()` followed by `defer func(am){ am.Terminate(); am.cleanup() }(am)`.
`Start` calls `t.Fatalf` when `cmd.Start()` fails, which stops the test
goroutine and runs the defers registered so far — the defer of the failing
iteration has not yet been registered. Instances are modelled by their
`cmd.Start()` success flag, in loop order. -/

/-- How many leading instances have their deferred teardown registered by
Run's start loop: one per instance whose `Start` returned, stopping at the
first failure (whose own defer is never registered). -/
def registeredDefers : List Bool → ℕ
  | [] => 0
  | ok :: rest => if ok then registeredDefers rest + 1 else 0

/-- Outcome of `Run` relevant to teardown: `torn` is the number of leading
instances whose `Terminate` and `cleanup` (config-artifact removal) execute;
`startFatal` records whether some `Start` aborted the test. -/
structure RunOutcome where
  torn : ℕ
  startFatal : Bool

/-- Teardown behaviour of `AcceptanceTest.Run` (lines 140-170): deferred
teardowns run both on a fatal start (via the test abort unwinding) and at
normal return, so `restFails` — whether the action/reconciliation phases
report failures — does not influence which instances are torn down. -/
def runTeardown (starts : List Bool) (restFails : Bool) : RunOutcome :=
  ⟨registeredDefers starts, !starts.all id⟩

theorem lt_registeredDefers_iff (starts : List Bool) (i : ℕ) (h : i < starts.length) :
    i < registeredDefers starts ↔ (starts.take (i + 1)).all id = true := by
  induction starts generalizing i with
  | nil => simp at h
  | cons ok rest ih =>
    cases i with
    | zero => cases ok <;> simp [registeredDefers]
    | succ j =>
      cases ok with
      | false => simp [registeredDefers]
      | true =>
        have hj : j < rest.length := by simpa using h
        simpa [registeredDefers, Nat.succ_lt_succ_iff] using ih j hj

/-- C1 counterexample: a test with a single instance whose start() fails —
the instance exists, yet no teardown executes, so its configuration
artifact is never removed by cleanup, refuting the claim that cleanup runs
even when that instance's start() failed. -/
theorem run_teardown_cex :
    0 < ([false] : List Bool).length ∧ ¬ 0 < (runTeardown [false] false).torn := by
  decide

/-- C1 amended: teardown executes exactly for the instances up to and
including the last successful start before any failure — independent of
whether the later phases fail (restFails) — and in particular never for an
instance whose own start() failed. -/
theorem run_teardown_amended (starts : List Bool) (restFails : Bool) (i : ℕ)
    (h : i < starts.length) :
    i < (runTeardown starts restFails).torn ↔ (starts.take (i + 1)).all id = true :=
  lt_registeredDefers_iff starts i h

/-- C1 amended witness: in a three-instance run whose second start fails and
whose later phases also fail, the first instance is torn down. -/
theorem run_teardown_amended_witness :
    0 < ([true, false, true] : List Bool).length
      ∧ (0 < (runTeardown [true, false, true] true).torn
          ↔ (([true, false, true] : List Bool).take 1).all id = true) :=
  ⟨by decide, run_teardown_amended [true, false, true] true 0 (by decide)⟩

/-! ### Configuration rewriting (C2)

`Alertmanager.UpdateConfig` (part_000 lines 269-280) is documented as
rewriting the configuration file, but performs `am.confFile.WriteString(conf)`
followed by `Sync()`: a write at the file's current offset — the end of all
previously written data — with no truncate and no seek, i.e. an append. -/

/-- Embedding of `Alertmanager.UpdateConfig`'s effect on the configuration
artifact's contents on the success path: `WriteString` appends `conf` after
the previously written content. -/
def UpdateConfig (content : String) (conf : String) : String :=
  content ++ conf

/-- C2: calling UpdateConfig a second time leaves the artifact holding the
concatenation of both documents, not exactly the last document — the write
appends because there is no truncate or seek, contradicting the function's
own doc comment that it rewrites the configuration file. -/
theorem updateConfig_appends :
    UpdateConfig (UpdateConfig "" "a") "b" = "ab"
      ∧ UpdateConfig (UpdateConfig "" "a") "b" ≠ "b" := by
  exact ⟨rfl, by decide⟩

/-! ### Instance lifecycle: Start, Terminate, Reload (C10) -/

/-- A managed instance's process state: `cmd.Process` (part_000 line 200)
is absent (`none`) until `cmd.Start()` succeeds. -/
structure Alertmanager where
  process : Option ℤ

/-- A freshly constructed instance (`AcceptanceTest.Alertmanager`, part_000
lines 84-122): `exec.Command` creates the command without launching it, so
no process handle is present. -/
def mkAlertmanager : Alertmanager := ⟨none⟩

/-- Embedding of `Alertmanager.Start` (part_000 lines 205-211): on launch
success the process handle is populated with the new process's pid; on
failure `t.Fatalf` aborts the test (`none`). -/
def Alertmanager.Start (am : Alertmanager) (launchOk : Bool) (pid : ℤ) : Option Alertmanager :=
  if launchOk then some ⟨some pid⟩ else none

/-- Embedding of `Alertmanager.Terminate` (part_000 lines 214-216):
`syscall.Kill(am.cmd.Process.Pid, syscall.SIGTERM)` dereferences the process
handle unconditionally. `some (15, pid)` is SIGTERM delivered to pid; `none`
is the nil-pointer fault when the handle is absent. -/
def Alertmanager.Terminate (am : Alertmanager) : Option (ℤ × ℤ) :=
  am.process.map (fun pid => (15, pid))

/-- Embedding of `Alertmanager.Reload` (part_000 lines 219-221): SIGHUP with
the same unconditional dereference of the process handle. -/
def Alertmanager.Reload (am : Alertmanager) : Option (ℤ × ℤ) :=
  am.process.map (fun pid => (1, pid))

/-- C10: Terminate and Reload dereference the process handle unconditionally,
so they fault whenever the handle is absent — as it is on a freshly
constructed instance — and are total exactly after a successful Start has
populated the handle. -/
theorem terminate_reload_need_start (am : Alertmanager) :
    (am.process = none → am.Terminate = none ∧ am.Reload = none)
      ∧ mkAlertmanager.process = none
      ∧ (∀ pid am', am.Start true pid = some am' →
          am'.Terminate = some (15, pid) ∧ am'.Reload = some (1, pid)) := by
  refine ⟨fun h => ?_, rfl, fun pid am' h => ?_⟩
  · simp [Alertmanager.Terminate, Alertmanager.Reload, h]
  · have : am' = ⟨some pid⟩ := by simpa [Alertmanager.Start] using h.symm
    subst this
    simp [Alertmanager.Terminate, Alertmanager.Reload]

/-- C10 witness: the fresh instance faults on Terminate and Reload, and the
instance produced by a successful Start with pid 42 signals pid 42. -/
theorem terminate_reload_need_start_witness :
    (mkAlertmanager.Terminate = none ∧ mkAlertmanager.Reload = none)
      ∧ ((⟨some 42⟩ : Alertmanager).Terminate = some (15, 42)
          ∧ (⟨some 42⟩ : Alertmanager).Reload = some (1, 42)) :=
  ⟨(terminate_reload_need_start mkAlertmanager).1 rfl,
   (terminate_reload_need_start mkAlertmanager).2.2 42 ⟨some 42⟩ rfl⟩

/-! ### Timed semantics of runActions (C4)

`AcceptanceTest.runActions` (part_000 lines 173-190) spawns one goroutine
per registered action; each sleeps `ts.Sub(time.Now())` — a nonpositive
duration returns immediately — then runs the action, and `wg.Wait()` blocks
until all have called `wg.Done()`. The timing is embedded with `t0` the
instant the goroutine is spawned, each action carrying its relative time and
its execution duration in nanoseconds. -/

/-- A scheduled action's timing data: its registration-relative time and how
long its body runs, in nanoseconds. -/
structure SchedTimed where
  rel : ℚ
  dur : ℕ
deriving DecidableEq

/-- Instant the action's body is invoked: its goroutine sleeps until the
expanded absolute time, or proceeds immediately when that time has already
passed (`time.Sleep` of a nonpositive duration returns at once). -/
def invokeTime (opts : AcceptanceOpts) (t0 : Time) (a : SchedTimed) : Time :=
  max t0 (opts.expandTime a.rel)

/-- Instant the action's body finishes. -/
def completeTime (opts : AcceptanceOpts) (t0 : Time) (a : SchedTimed) : Time :=
  invokeTime opts t0 a + a.dur

/-- Instant `runActions` returns: `wg.Wait()` resolves once every spawned
action has completed (and not before t0 itself). -/
def runActionsReturn (opts : AcceptanceOpts) (t0 : Time) (acts : List SchedTimed) : Time :=
  acts.foldl (fun m a => max m (completeTime opts t0 a)) t0

theorem le_foldl_max {α : Type} (f : α → ℤ) (l : List α) (init : ℤ) :
    init ≤ l.foldl (fun m a => max m (f a)) init
      ∧ ∀ b ∈ l, f b ≤ l.foldl (fun m a => max m (f a)) init := by
  induction l generalizing init with
  | nil => simp
  | cons a tl ih =>
    refine ⟨?_, fun b hb => ?_⟩
    · calc init ≤ max init (f a) := le_max_left _ _
        _ ≤ _ := (ih (max init (f a))).1
    · rcases List.mem_cons.mp hb with rfl | hmem
      · calc f b ≤ max init (f b) := le_max_right _ _
          _ ≤ _ := (ih (max init (f b))).1
      · exact (ih (max init (f a))).2 b hmem

/-- C4: no registered action's body is invoked before its expanded absolute
time; an action whose expanded time is already past at spawn is invoked
immediately at t0 rather than erroring; and runActions does not return
before every registered action — in particular the slowest one at the
largest relative time — has completed. -/
theorem runActions_timing (opts : AcceptanceOpts) (t0 : Time) (acts : List SchedTimed)
    (a : SchedTimed) (h : a ∈ acts) :
    opts.expandTime a.rel ≤ invokeTime opts t0 a
      ∧ (opts.expandTime a.rel ≤ t0 → invokeTime opts t0 a = t0)
      ∧ completeTime opts t0 a ≤ runActionsReturn opts t0 acts := by
  refine ⟨le_max_right _ _, fun hp => max_eq_left hp, ?_⟩
  exact (le_foldl_max (completeTime opts t0) acts t0).2 a h

/-- C4 witness: one action at relative time 1 running for 5 ns, spawned at
t0 = 0 with base time 0. -/
theorem runActions_timing_witness :
    (⟨1, 5⟩ : SchedTimed) ∈ [(⟨1, 5⟩ : SchedTimed)]
      ∧ ((⟨0, 0⟩ : AcceptanceOpts).expandTime 1
            ≤ invokeTime ⟨0, 0⟩ 0 ⟨1, 5⟩
          ∧ ((⟨0, 0⟩ : AcceptanceOpts).expandTime 1 ≤ 0 →
              invokeTime ⟨0, 0⟩ 0 ⟨1, 5⟩ = 0)
          ∧ completeTime ⟨0, 0⟩ 0 ⟨1, 5⟩
            ≤ runActionsReturn ⟨0, 0⟩ 0 [⟨1, 5⟩]) :=
  ⟨by simp, runActions_timing ⟨0, 0⟩ 0 [⟨1, 5⟩] ⟨1, 5⟩ (by simp)⟩

/-! ### Post-action deadline wait in Run (C9)

After `runActions`, `Run` (part_000 lines 151-164) folds the collectors'
`latest()` values over a zero-initialised maximum, expands it and sleeps
`deadline.Sub(time.Now())` — immediately resuming when the deadline has
already passed. -/

/-- The maximum of the collectors' latest expected times, starting from the
zero value of `var latest float64` (lines 151-156). -/
def latestDeadline (ls : List ℚ) : ℚ :=
  ls.foldl (fun acc l => if acc < l then l else acc) 0

/-- Instant at which Run resumes after the deadline sleep (lines 158-159):
`time.Sleep` of a nonpositive duration returns immediately. -/
def postActionsResume (opts : AcceptanceOpts) (now : Time) (ls : List ℚ) : Time :=
  max now (opts.expandTime (latestDeadline ls))

/-- C9: with no collectors the deadline folds to relative time 0, and
whenever the expanded deadline has already elapsed by the end of action
execution, Run proceeds to the collector checks immediately — the resume
instant is `now`, with no error and no additional delay. -/
theorem run_deadline_no_delay (opts : AcceptanceOpts) (now : Time) (ls : List ℚ)
    (h : opts.expandTime (latestDeadline ls) ≤ now) :
    latestDeadline [] = 0 ∧ postActionsResume opts now ls = now :=
  ⟨rfl, max_eq_left h⟩

/-- C9 witness: base time 0, one collector whose latest is 2 seconds, and
action execution finishing at 3 seconds past the epoch. -/
theorem run_deadline_no_delay_witness :
    (⟨0, 0⟩ : AcceptanceOpts).expandTime (latestDeadline [2]) ≤ 3000000000
      ∧ (latestDeadline [] = 0
          ∧ postActionsResume ⟨0, 0⟩ 3000000000 [2] = 3000000000) :=
  ⟨by norm_num [AcceptanceOpts.expandTime, ratTrunc, latestDeadline, List.foldl, second],
   run_deadline_no_delay ⟨0, 0⟩ 3000000000 [2]
     (by norm_num [AcceptanceOpts.expandTime, ratTrunc, latestDeadline, List.foldl, second])⟩

/-! ### SetSilence write-back (C6)

`Alertmanager.SetSilence` (part_000 lines 245-256) registers an action that
calls `silences.Set`; on error it records the error via `t.Error` and
returns before the assignment `sil.ID = sid`; on success it assigns the
returned identifier onto the caller's silence handle. -/

/-- The caller's silence handle; `ID` is the identifier later actions (for
example deletion) reference. -/
structure TestSilence where
  ID : String
deriving DecidableEq

/-- Embedding of the action body registered by `Alertmanager.SetSilence`
(part_000 lines 248-255), applied to the outcome of `silences.Set`: it
returns the handle and the test's recorded-error list afterwards. -/
def setSilenceFire (res : Except String String) (sil : TestSilence)
    (errors : List String) : TestSilence × List String :=
  match res with
  | Except.error e => (sil, errors ++ [e])
  | Except.ok sid => (⟨sid⟩, errors)

/-- C6: when the create-or-update call succeeds the returned identifier is
assigned onto the caller's handle and no error is recorded; when it fails
the error is appended to the test's failure channel and the handle — its
identifier included — is left unchanged. -/
theorem setSilence_writeback (sil : TestSilence) (errors : List String) :
    (∀ sid, setSilenceFire (Except.ok sid) sil errors = (⟨sid⟩, errors))
      ∧ (∀ e, setSilenceFire (Except.error e) sil errors = (sil, errors ++ [e])) :=
  ⟨fun _ => rfl, fun _ => rfl⟩

/-! ### Push snapshot semantics (C8)

`Alertmanager.Push` (part_000 lines 229-242) converts the passed alerts with
`a.nativeAlert(am.opts)` into the batch `nas` before calling `t.Do`; the
registered closure submits the captured `nas` and does not reconsult the
alert values at fire time. `TestAlert` and `nativeAlert` are not part of the
given sources, so alert values and the conversion are kept abstract; alert
arguments are references (`*TestAlert`) into a mutable store. -/

/-- Embedding of `Alertmanager.Push`: from the store contents at
registration time and the list of passed references, the converted batch
`nas` is computed immediately, and the registered closure submits exactly
that captured batch whatever the store holds when the action fires. -/
def PushClosure {α β : Type} (nativeAlert : α → β) (regStore : ℕ → α)
    (refs : List ℕ) : (ℕ → α) → List β :=
  let nas := refs.map (fun r => nativeAlert (regStore r))
  fun _fireStore => nas

/-- C8: the submitted batch is computed once at registration time — firing
under any two store states submits the same batch, namely the conversion of
the alert values as they were when pushAlerts was called, so mutating the
alerts between registration and firing cannot change the submission. -/
theorem push_snapshot {α β : Type} (nativeAlert : α → β) (regStore : ℕ → α)
    (refs : List ℕ) (fireStore fireStore' : ℕ → α) :
    PushClosure nativeAlert regStore refs fireStore
        = PushClosure nativeAlert regStore refs fireStore'
      ∧ PushClosure nativeAlert regStore refs fireStore
        = refs.map (fun r => nativeAlert (regStore r)) :=
  ⟨rfl, rfl⟩

/-! ### Collector reconciliation (C7)

The Collector's matching code (`Collector.check`) is not among the given
sources — part_000 only constructs collectors and calls `latest()` and
`check()` — so the matching algorithm is modelled from the spec (§4.4):
candidates are observations inside the tolerance-widened interval with a
value-equal batch; expectations are matched in ascending order of their
earliest bound; a satisfying observation is consumed and leaves the
candidate pool. Batches are an arbitrary type with decidable value
equality. -/

/-- Modelled from the spec: an expectation — one batch expected within a
closed relative-time interval. -/
structure Expectation (β : Type) where
  earliest : ℚ
  latest : ℚ
  batch : β
deriving DecidableEq

/-- Modelled from the spec: an observation — a batch and the relative time
it was received. -/
structure Observation (β : Type) where
  observedAt : ℚ
  batch : β
deriving DecidableEq

/-- Modelled from the spec: an observation is a candidate for an expectation
when its time lies in the tolerance-widened interval and its batch is
value-equal to the expected batch. -/
def isCandidate {β : Type} [DecidableEq β] (tol : ℚ) (e : Expectation β)
    (o : Observation β) : Bool :=
  decide (e.earliest - tol ≤ o.observedAt) && decide (o.observedAt ≤ e.latest + tol)
    && decide (o.batch = e.batch)

/-- Insertion step of sorting expectations by ascending earliest bound. -/
def insertByEarliest {β : Type} (e : Expectation β) :
    List (Expectation β) → List (Expectation β)
  | [] => [e]
  | x :: xs => if e.earliest ≤ x.earliest then e :: x :: xs else x :: insertByEarliest e xs

/-- Modelled from the spec: expectations are matched in ascending order of
earliest to make tie-breaking deterministic. -/
def sortByEarliest {β : Type} : List (Expectation β) → List (Expectation β)
  | [] => []
  | e :: es => insertByEarliest e (sortByEarliest es)

/-- Modelled from the spec: one matching step — state is (satisfied count,
unsatisfied count, remaining candidate pool); a satisfied expectation
consumes the first candidate, an unsatisfied one leaves the pool intact. -/
def checkStep {β : Type} [DecidableEq β] (tol : ℚ)
    (st : ℕ × ℕ × List (Observation β)) (e : Expectation β) :
    ℕ × ℕ × List (Observation β) :=
  if st.2.2.any (isCandidate tol e)
  then (st.1 + 1, st.2.1, st.2.2.eraseP (isCandidate tol e))
  else (st.1, st.2.1 + 1, st.2.2)

/-- Modelled from the spec: the Collector's reconciliation — returns the
counts of satisfied and unsatisfied expectations after greedy one-to-one
matching in ascending earliest order. -/
def check {β : Type} [DecidableEq β] (tol : ℚ) (exps : List (Expectation β))
    (obs : List (Observation β)) : ℕ × ℕ :=
  (((sortByEarliest exps).foldl (checkStep tol) (0, 0, obs)).1,
    ((sortByEarliest exps).foldl (checkStep tol) (0, 0, obs)).2.1)

theorem two_exp_one_obs {β : Type} [DecidableEq β] (tol : ℚ)
    (a b : Expectation β) (o : Observation β) :
    ([a, b].foldl (checkStep tol) (0, 0, [o])).1 ≤ 1
      ∧ 1 ≤ ([a, b].foldl (checkStep tol) (0, 0, [o])).2.1 := by
  by_cases ha : isCandidate tol a o
  · simp [checkStep, List.eraseP, ha]
  · by_cases hb : isCandidate tol b o <;>
      simp [checkStep, List.eraseP, ha, hb]

/-- C7: each observation satisfies at most one expectation — given two
expectations for the identical batch at non-overlapping tolerance-widened
intervals and exactly one observation of that batch, at most one expectation
is marked satisfied and at least one is reported unsatisfied, because a
consumed observation leaves the candidate pool. -/
theorem check_greedy_consumption {β : Type} [DecidableEq β] (tol : ℚ)
    (e1 e2 : Expectation β) (o : Observation β) (b : β)
    (hb1 : e1.batch = b) (hb2 : e2.batch = b) (hob : o.batch = b)
    (hdisj : e1.latest + tol < e2.earliest - tol) :
    (check tol [e1, e2] [o]).1 ≤ 1 ∧ 1 ≤ (check tol [e1, e2] [o]).2 := by
  unfold check
  by_cases hord : e1.earliest ≤ e2.earliest
  · simpa [sortByEarliest, insertByEarliest, hord] using two_exp_one_obs tol e1 e2 o
  · simpa [sortByEarliest, insertByEarliest, hord] using two_exp_one_obs tol e2 e1 o

/-- C7 witness: two expectations of batch 0 on intervals [5,10] and [20,30]
with tolerance 0, and one observation of batch 0 at time 7. -/
theorem check_greedy_consumption_witness :
    ((⟨5, 10, 0⟩ : Expectation ℕ).latest + 0 < (⟨20, 30, 0⟩ : Expectation ℕ).earliest - 0)
      ∧ ((check 0 [(⟨5, 10, 0⟩ : Expectation ℕ), ⟨20, 30, 0⟩]
            [(⟨7, 0⟩ : Observation ℕ)]).1 ≤ 1
          ∧ 1 ≤ (check 0 [(⟨5, 10, 0⟩ : Expectation ℕ), ⟨20, 30, 0⟩]
            [(⟨7, 0⟩ : Observation ℕ)]).2) :=
  ⟨by norm_num,
   check_greedy_consumption 0 ⟨5, 10, 0⟩ ⟨20, 30, 0⟩ ⟨7, 0⟩ 0 rfl rfl rfl (by norm_num)⟩

end AMTest
